import Mathlib

/-!
Verification of the concurrent fetch-validate-retry pipeline of
src/nasa_image_downloader.py (NASA_Gallery_Downloader).

The Python source is shallowly embedded below.  External collaborators
(the requests library, PIL image decoding, BeautifulSoup parse results,
urllib.parse.urljoin) are modelled as explicit oracle parameters; the
logic of the repository itself (naming, validation, resolution priority,
the retry loop, the ledgers and the resume pass) is translated directly
from the source.  MD5 (hashlib.md5) is implemented in full so that the
digest portion of the naming scheme can be reasoned about concretely.
-/

set_option maxRecDepth 100000

namespace NasaDL

/-- Boolean test that the first list is a prefix of the second
(character lists; mirrors Python string prefix comparison). -/
def isPrefixL : List Char → List Char → Bool
  | [], _ => true
  | _ :: _, [] => false
  | a :: as, b :: bs => a == b && isPrefixL as bs

/-- Python substring containment `needle in hay` on character lists:
some suffix of the haystack starts with the needle. -/
def containsSub (needle : List Char) : List Char → Bool
  | [] => isPrefixL needle []
  | c :: t => isPrefixL needle (c :: t) || containsSub needle t

/-- Python `pat in hay` for strings. -/
def strContains (hay pat : String) : Bool := containsSub pat.data hay.data

/-- ASCII lowercase of one character (Python str.lower restricted to
ASCII, which covers every comparison made by the source: the patterns
are ASCII extension and hint strings). -/
def lowerCh (c : Char) : Char :=
  if 65 ≤ c.toNat && c.toNat ≤ 90 then Char.ofNat (c.toNat + 32) else c

/-- ASCII lowercase of a string. -/
def lowerS (s : String) : String := String.mk (s.data.map lowerCh)

/-- IMAGE_EXTENSIONS constant from the source (line 28). -/
def IMAGE_EXTENSIONS : List String :=
  [".jpg", ".jpeg", ".png", ".gif", ".tif", ".tiff", ".bmp"]

/-! MD5, as used by generate_unique_filename via hashlib.md5(...).hexdigest().
32-bit words are Nats kept below 2^32 with explicit reduction. -/

/-- Reduce a Nat to a 32-bit word. -/
def w32 (n : Nat) : Nat := n % 4294967296

/-- Bitwise complement on 32-bit words. -/
def cpl (x : Nat) : Nat := 4294967295 - w32 x

/-- Left rotation of a 32-bit word by s bits. -/
def rotl (x s : Nat) : Nat := w32 (w32 x * 2 ^ s) + w32 x / 2 ^ (32 - s)

/-- MD5 round function F. -/
def mF (b c d : Nat) : Nat := (b &&& c) ||| (cpl b &&& d)

/-- MD5 round function G. -/
def mG (b c d : Nat) : Nat := (d &&& b) ||| (cpl d &&& c)

/-- MD5 round function H. -/
def mH (b c d : Nat) : Nat := b ^^^ c ^^^ d

/-- MD5 round function I. -/
def mI (b c d : Nat) : Nat := c ^^^ (b ||| cpl d)

/-- MD5 sine-derived round constants. -/
def md5K : List Nat :=
  [3614090360, 3905402710, 606105819, 3250441966, 4118548399, 1200080426, 2821735955, 4249261313,
   1770035416, 2336552879, 4294925233, 2304563134, 1804603682, 4254626195, 2792965006, 1236535329,
   4129170786, 3225465664, 643717713, 3921069994, 3593408605, 38016083, 3634488961, 3889429448,
   568446438, 3275163606, 4107603335, 1163531501, 2850285829, 4243563512, 1735328473, 2368359562,
   4294588738, 2272392833, 1839030562, 4259657740, 2763975236, 1272893353, 4139469664, 3200236656,
   681279174, 3936430074, 3572445317, 76029189, 3654602809, 3873151461, 530742520, 3299628645,
   4096336452, 1126891415, 2878612391, 4237533241, 1700485571, 2399980690, 4293915773, 2240044497,
   1873313359, 4264355552, 2734768916, 1309151649, 4149444226, 3174756917, 718787259, 3951481745]

/-- MD5 per-round left-rotation amounts. -/
def md5S : List Nat :=
  [7, 12, 17, 22, 7, 12, 17, 22, 7, 12, 17, 22, 7, 12, 17, 22,
   5, 9, 14, 20, 5, 9, 14, 20, 5, 9, 14, 20, 5, 9, 14, 20,
   4, 11, 16, 23, 4, 11, 16, 23, 4, 11, 16, 23, 4, 11, 16, 23,
   6, 10, 15, 21, 6, 10, 15, 21, 6, 10, 15, 21, 6, 10, 15, 21]

/-- MD5 chaining state (four 32-bit words). -/
structure MD5St where
  a : Nat
  b : Nat
  c : Nat
  d : Nat

/-- Message-word index schedule for round i. -/
def md5G (i : Nat) : Nat :=
  if i < 16 then i
  else if i < 32 then (5 * i + 1) % 16
  else if i < 48 then (3 * i + 5) % 16
  else (7 * i) % 16

/-- Round-dependent nonlinear function selection. -/
def md5Fi (i b c d : Nat) : Nat :=
  if i < 16 then mF b c d
  else if i < 32 then mG b c d
  else if i < 48 then mH b c d
  else mI b c d

/-- One MD5 round over message words M. -/
def md5Round (M : List Nat) (st : MD5St) (i : Nat) : MD5St :=
  let f := w32 (md5Fi i st.b st.c st.d + st.a + md5K.getD i 0 + M.getD (md5G i) 0)
  let newB := w32 (st.b + rotl f (md5S.getD i 0))
  ⟨st.d, newB, st.b, st.c⟩

/-- One 512-bit MD5 block step (64 rounds then chaining addition). -/
def md5Block (st : MD5St) (M : List Nat) : MD5St :=
  let r := (List.range 64).foldl (md5Round M) st
  ⟨w32 (st.a + r.a), w32 (st.b + r.b), w32 (st.c + r.c), w32 (st.d + r.d)⟩

/-- Pack a byte list into little-endian 32-bit words, four bytes at a time. -/
def leWords : List Nat → List Nat
  | b0 :: b1 :: b2 :: b3 :: rest =>
    (b0 + 256 * b1 + 65536 * b2 + 16777216 * b3) :: leWords rest
  | _ => []

/-- Fold the padded byte stream through md5Block, 64 bytes per step
(fuel-based recursion; fuel is instantiated with the stream length). -/
def md5Chunks : Nat → List Nat → MD5St → MD5St
  | 0, _, st => st
  | fuel + 1, bs, st =>
    match bs with
    | [] => st
    | _ :: _ => md5Chunks fuel (bs.drop 64) (md5Block st (leWords (bs.take 64)))

/-- UTF-8 encoding of a single character, as bytes. -/
def utf8Char (c : Char) : List Nat :=
  let n := c.toNat
  if n < 128 then [n]
  else if n < 2048 then [192 + n / 64, 128 + n % 64]
  else if n < 65536 then [224 + n / 4096, 128 + n / 64 % 64, 128 + n % 64]
  else [240 + n / 262144, 128 + n / 4096 % 64, 128 + n / 64 % 64, 128 + n % 64]

/-- UTF-8 encoding of a string, as a byte list (Python str.encode()). -/
def utf8Str (s : String) : List Nat := (s.data.map utf8Char).foldr (· ++ ·) []

/-- The low 8 little-endian bytes of a Nat (bit-length field of MD5 padding). -/
def leBytes8 (n : Nat) : List Nat :=
  [n % 256, n / 256 % 256, n / 65536 % 256, n / 16777216 % 256,
   n / 4294967296 % 256, n / 1099511627776 % 256,
   n / 281474976710656 % 256, n / 72057594037927936 % 256]

/-- MD5 padding: 0x80, zeros to 56 mod 64, then the 64-bit bit length. -/
def md5Padded (s : String) : List Nat :=
  let msg := utf8Str s
  msg ++ 128 :: (List.replicate ((119 - msg.length % 64) % 64) 0 ++ leBytes8 (msg.length * 8))

/-- MD5 initial chaining state. -/
def md5Init : MD5St := ⟨1732584193, 4023233417, 2562383102, 271733878⟩

/-- Final MD5 chaining state for a string input. -/
def md5Final (s : String) : MD5St :=
  let p := md5Padded s
  md5Chunks p.length p md5Init

/-- The 4 little-endian bytes of a 32-bit word. -/
def leBytes4 (w : Nat) : List Nat := [w % 256, w / 256 % 256, w / 65536 % 256, w / 16777216 % 256]

/-- The 16 MD5 digest bytes of a string. -/
def md5Bytes (s : String) : List Nat :=
  leBytes4 (md5Final s).a ++ leBytes4 (md5Final s).b ++
    leBytes4 (md5Final s).c ++ leBytes4 (md5Final s).d

/-- Lowercase hexadecimal digit character for a value below 16. -/
def hexDigitCh (n : Nat) : Char := if n < 10 then Char.ofNat (48 + n) else Char.ofNat (87 + n)

/-- Characters of hashlib hexdigest(): two lowercase hex digits per byte. -/
def md5HexChars (s : String) : List Char :=
  (md5Bytes s).foldr (fun b acc => hexDigitCh (b / 16) :: hexDigitCh (b % 16) :: acc) []

/-- hashlib.md5(s.encode()).hexdigest() as a Lean string. -/
def md5Hex (s : String) : String := String.mk (md5HexChars s)

/-- hexdigest()[:8], the 8-character digest used in filenames (source line 94). -/
def hash8 (u : String) : String := String.mk ((md5HexChars u).take 8)

/-- Python img_url.split("?")[0]: the prefix before the first question mark. -/
def splitQuery (s : List Char) : List Char := s.takeWhile (fun c => c != '?')

/-- posixpath.basename: the part after the last slash. -/
def basenameL (s : List Char) : List Char := (s.reverse.takeWhile (fun c => c != '/')).reverse

/-- posixpath.splitext on a string with no slash: split at the last dot,
except that a dot preceded only by dots starts no extension. -/
def splitextL (p : List Char) : List Char × List Char :=
  let extLen := (p.reverse.takeWhile (fun c => c != '.')).length
  if extLen = p.length then (p, [])
  else
    let dotIdx := p.length - extLen - 1
    if (p.take dotIdx).any (fun c => c != '.') then (p.take dotIdx, p.drop dotIdx)
    else (p, [])

/-- basename of the query-stripped URL (source line 95). -/
def stripQueryBase (u : String) : List Char := basenameL (splitQuery u.data)

/-- The extension chosen by generate_unique_filename: the extracted
extension when nonempty and recognized after lowercasing (case
preserved), the default ".jpg" otherwise (source lines 96-98). -/
def extChosen (u : String) : String :=
  if String.mk (splitextL (stripQueryBase u)).2 = "" ∨
      lowerS (String.mk (splitextL (stripQueryBase u)).2) ∉ IMAGE_EXTENSIONS then ".jpg"
  else String.mk (splitextL (stripQueryBase u)).2

/-- generate_unique_filename from the source (lines 93-99): base name,
underscore, 8 hex digest characters, then the original extension when it
is recognized (case preserved) or ".jpg" otherwise. -/
def generate_unique_filename (img_url : String) : String :=
  let base := stripQueryBase img_url
  let pe := splitextL base
  let ext0 := String.mk pe.2
  let ext := if ext0 = "" ∨ lowerS ext0 ∉ IMAGE_EXTENSIONS then ".jpg" else ext0
  String.mk pe.1 ++ "_" ++ hash8 img_url ++ ext

/-! ContentValidator: is_valid_image (source lines 101-113).  PIL parsing
is an oracle: decode bytes = some (width, height) when the bytes parse as
a known raster image, none when the parse or verify step raises. -/

/-- Outcome of is_valid_image enriched with the code path taken: the
except branch logs an Invalid-image warning (corrupt), the size branch
logs a too-small warning, otherwise the file is accepted. -/
inductive VResult
  | valid
  | corrupt
  | tooSmall
deriving DecidableEq

/-- The three-way classification realized by is_valid_image: parse
failure, undersized, or accepted (source lines 101-113). -/
def validationReason (decode : List Nat → Option (Nat × Nat))
    (bytes : List Nat) (min_size : Nat) : VResult :=
  match decode bytes with
  | none => VResult.corrupt
  | some (w, h) => if w < min_size || h < min_size then VResult.tooSmall else VResult.valid

/-- is_valid_image from the source: true exactly on the accepting path. -/
def is_valid_image (decode : List Nat → Option (Nat × Nat))
    (bytes : List Nat) (min_size : Nat) : Bool :=
  match decode bytes with
  | none => false
  | some (w, h) => if w < min_size || h < min_size then false else true

/-! ResourceLocator: extract_image_url (source lines 146-179).  The
fetched, parsed HTML document is modelled as the query results the code
makes on the soup: meta tags, img sources, anchor targets, each in
document order.  urljoin is an oracle parameter. -/

/-- One meta element: its property attribute, name attribute and content
attribute, each possibly absent. -/
structure MetaTag where
  prop : Option String
  nameAttr : Option String
  content : Option String
deriving DecidableEq

/-- A fetched HTML document as seen through the soup queries of the
source: all meta tags, the src of every img element that has one, and
the href of every anchor that has one, in document order. -/
structure HtmlDoc where
  metas : List MetaTag
  imgs : List String
  anchors : List String
deriving DecidableEq

/-- soup.find("meta", property=v) or soup.find("meta", attrs=name v):
first meta whose property attribute is v, else first whose name
attribute is v (source line 153). -/
def metaFind (metas : List MetaTag) (v : String) : Option MetaTag :=
  match metas.find? (fun m => m.prop == some v) with
  | some m => some m
  | none => metas.find? (fun m => m.nameAttr == some v)

/-- The content of the meta tag found for v, provided it is present and
nonempty (the truthiness test on meta_tag.get("content")). -/
def metaTry (metas : List MetaTag) (v : String) : Option String :=
  match metaFind metas v with
  | none => none
  | some m =>
    match m.content with
    | none => none
    | some c => if c = "" then none else some c

/-- The hint tokens of the second tier (source line 160). -/
def hintTokens : List String := ["full", "large", "orig", "high-res", "hires"]

/-- True when the lowercased string contains one of the hint tokens. -/
def hasHint (src : String) : Bool := hintTokens.any (fun t => strContains (lowerS src) t)

/-- True when the lowercased string contains some known image extension
as a substring (the test applied to anchor targets, source line 170, and
to candidate URLs, source line 246). -/
def containsImageExt (s : String) : Bool :=
  IMAGE_EXTENSIONS.any (fun e => strContains (lowerS s) e)

/-- extract_image_url after a successful fetch of the page (source lines
150-173): og:image/twitter:image metas, then a hinted img, then the
first img, then an anchor containing an image extension; meta content is
returned raw, the other tiers are urljoined against the page URL. -/
def extractFromDoc (join : String → String → String) (pageUrl : String)
    (doc : HtmlDoc) : Option String :=
  match metaTry doc.metas "og:image" with
  | some c => some c
  | none =>
    match metaTry doc.metas "twitter:image" with
    | some c => some c
    | none =>
      match doc.imgs.find? hasHint with
      | some src => some (join pageUrl src)
      | none =>
        match doc.imgs.head? with
        | some src => some (join pageUrl src)
        | none =>
          match doc.anchors.find? containsImageExt with
          | some href => some (join pageUrl href)
          | none => none

/-! DownloadWorker and the ledgers: download_image (source lines
242-295), process_category (297-322) and retry_failed_images (324-358).
Network and decoding are oracle fields of Env; attempt indices let the
fetch oracle vary between retries.  Randomized waits are recorded as
events, not durations: random_wait(1,3) before each attempt is jitter,
random_wait(3,7) after a caught request exception is backoff. -/

/-- Result of requests.get on the image URL: err covers a raised
RequestException (network error, timeout, or a non-2xx status surfaced
by raise_for_status); ok carries the Content-Type header and the body. -/
inductive FetchOutcome
  | err
  | ok (contentType : String) (body : List Nat)
deriving DecidableEq

/-- External oracles: page resolution (extract_image_url, none covering
both a fetch error and no tier matching), the per-attempt image fetch,
and PIL decoding. -/
structure Env where
  resolvePage : String → Option String
  fetchImg : String → Nat → FetchOutcome
  decode : List Nat → Option (Nat × Nat)

/-- Shared persistent state: the download directory contents (filename
to bytes) and the two ledgers as lists of recorded URLs in order. -/
structure St where
  fs : List (String × List Nat)
  successLog : List String
  failedLog : List String
deriving DecidableEq

/-- Observable side effects of one worker, in order: the pre-attempt
jitter sleep, an image fetch attempt, the longer post-exception backoff
sleep, a file write, a file removal, and the resolution page fetch. -/
inductive Ev
  | jitter
  | fetchAttempt (url : String)
  | backoff
  | fileWrite (nm : String)
  | fileRemove (nm : String)
  | resolveFetch (url : String)
deriving DecidableEq

/-- Terminal classification of one candidate: success (downloaded and
logged), skipped (already present and valid, source line 256-258, which
returns True without logging), failed (returns False). -/
inductive Outcome
  | success
  | skipped
  | failed
deriving DecidableEq

/-- Lookup of a file by name. -/
def fsGet : List (String × List Nat) → String → Option (List Nat)
  | [], _ => none
  | (k, v) :: rest, n => if k = n then some v else fsGet rest n

/-- File write (overwrites any previous content under that name). -/
def fsSet (fs : List (String × List Nat)) (n : String) (bytes : List Nat) :
    List (String × List Nat) := (n, bytes) :: fs

/-- os.remove: drop the file with the given name. -/
def fsRemove (fs : List (String × List Nat)) (n : String) : List (String × List Nat) :=
  fs.filter (fun p => p.1 != n)

/-- The os.path.exists and is_valid_image conjunction of the
already-present check (source line 256). -/
def existsValid (decode : List Nat → Option (Nat × Nat))
    (fs : List (String × List Nat)) (n : String) (minSize : Nat) : Bool :=
  match fsGet fs n with
  | none => false
  | some bytes => is_valid_image decode bytes minSize

/-- Content-Type check of the source (line 270): the declared type must
start with image/. -/
def isImageCT (ct : String) : Bool := isPrefixL "image/".data ct.data

/-- Prepend events produced before a recursive continuation. -/
def withEvs (pre : List Ev) (r : Outcome × St × List Ev) : Outcome × St × List Ev :=
  (r.1, r.2.1, pre ++ r.2.2)

/-- The retry loop of download_image (source lines 259-291), by
remaining attempts.  Each iteration: jitter, fetch; a request exception
backs off and retries; a non-image Content-Type goes straight to the
next attempt; otherwise the body is written, validated, and either
accepted (success, logged to the success ledger) or removed and retried.
Exhaustion appends the fetched URL to the failure ledger (lines 292-295). -/
def dlLoop (env : Env) (minSize : Nat) (actual imgName : String) :
    Nat → Nat → St → Outcome × St × List Ev
  | 0, _, st =>
    (Outcome.failed, { st with failedLog := st.failedLog ++ [actual] }, [])
  | n + 1, attempt, st =>
    match env.fetchImg actual attempt with
    | FetchOutcome.err =>
      withEvs [Ev.jitter, Ev.fetchAttempt actual, Ev.backoff]
        (dlLoop env minSize actual imgName n (attempt + 1) st)
    | FetchOutcome.ok ct body =>
      if isImageCT ct then
        let st' := { st with fs := fsSet st.fs imgName body }
        if is_valid_image env.decode body minSize then
          (Outcome.success, { st' with successLog := st'.successLog ++ [actual] },
           [Ev.jitter, Ev.fetchAttempt actual, Ev.fileWrite imgName])
        else
          withEvs [Ev.jitter, Ev.fetchAttempt actual, Ev.fileWrite imgName, Ev.fileRemove imgName]
            (dlLoop env minSize actual imgName n (attempt + 1)
              { st' with fs := fsRemove st'.fs imgName })
      else
        withEvs [Ev.jitter, Ev.fetchAttempt actual]
          (dlLoop env minSize actual imgName n (attempt + 1) st)

/-- The resolution step of download_image (source lines 246-254): a URL
containing a known image extension is used unchanged with no network
call; anything else goes through extract_image_url (one page fetch). -/
def resolveStep (env : Env) (u : String) : Option String × List Ev :=
  if containsImageExt u then (some u, [])
  else (env.resolvePage u, [Ev.resolveFetch u])

/-- download_image (source lines 242-295).  An empty URL fails at once
with no ledger write; a failed resolution appends the candidate to the
failure ledger; an existing valid target short-circuits; otherwise the
retry loop runs with max_retries attempts. -/
def download_image (env : Env) (minSize maxRetries : Nat) (img_url : String)
    (st : St) : Outcome × St × List Ev :=
  if img_url = "" then (Outcome.failed, st, [])
  else
    match (resolveStep env img_url).1 with
    | none =>
      (Outcome.failed, { st with failedLog := st.failedLog ++ [img_url] },
        (resolveStep env img_url).2)
    | some actual =>
      let imgName := generate_unique_filename actual
      if existsValid env.decode st.fs imgName minSize then
        (Outcome.skipped, st, (resolveStep env img_url).2)
      else withEvs (resolveStep env img_url).2 (dlLoop env minSize actual imgName maxRetries 0 st)

/-- One pipeline pass over a candidate list (the per-category worker
pool of process_category, source lines 297-322, sequentialized in
submission order), returning the final state, the per-candidate
outcomes, and the concatenated event trace. -/
def runPass (env : Env) (minSize maxRetries : Nat) :
    List String → St → St × List Outcome × List Ev
  | [], st => (st, [], [])
  | u :: rest, st =>
    let r := download_image env minSize maxRetries u st
    let rec' := runPass env minSize maxRetries rest r.2.1
    (rec'.1, r.1 :: rec'.2.1, r.2.2 ++ rec'.2.2)

/-- retry_failed_images (source lines 324-358).  The ledger is read and
filtered to nonempty lines; the downloads execute in completion order
(the list order supplies the index of the next future to complete, with
order = range n meaning completion in submission order); the collection
loop pairs the i-th completed future with urls indexed by i, exactly as
the enumerate(as_completed(futures)) loop does; finally the failure
ledger is truncated and rewritten with the collected list. -/
def retryPass (env : Env) (minSize maxRetries : Nat) (order : List Nat) (st : St) : St :=
  let urls := st.failedLog.filter (fun l => l != "")
  if urls.isEmpty then st
  else
    let step := fun (acc : St × List String) (ki : Nat × Nat) =>
      let r := download_image env minSize maxRetries (urls.getD ki.2 "") acc.1
      match r.1 with
      | Outcome.failed => (r.2.1, acc.2 ++ [urls.getD ki.1 ""])
      | _ => (r.2.1, acc.2)
    let fin := (order.enum).foldl step (st, [])
    { fin.1 with failedLog := fin.2 }

/-! Derived observers and predicates used by the theorems. -/

/-- Recognizer for image-fetch-attempt events. -/
def isFetchEv : Ev → Bool
  | Ev.fetchAttempt _ => true
  | _ => false

/-- Recognizer for resolution-page-fetch events. -/
def isResolveEv : Ev → Bool
  | Ev.resolveFetch _ => true
  | _ => false

/-- Recognizer for file-write events. -/
def isWriteEv : Ev → Bool
  | Ev.fileWrite _ => true
  | _ => false

/-- Recognizer for backoff-sleep events. -/
def isBackoffEv : Ev → Bool
  | Ev.backoff => true
  | _ => false

/-- Number of image fetch attempts in a trace. -/
def nFetch (evs : List Ev) : Nat := evs.countP isFetchEv

/-- Number of resolution page fetches in a trace. -/
def nResolve (evs : List Ev) : Nat := evs.countP isResolveEv

/-- Number of file writes in a trace. -/
def nWrite (evs : List Ev) : Nat := evs.countP isWriteEv

/-- True when attempt i on the given URL cannot produce a success: the
fetch raises, or the Content-Type is not an image, or the body fails
validation at the configured minimum size. -/
def attemptFails (env : Env) (minSize : Nat) (actual : String) (i : Nat) : Bool :=
  match env.fetchImg actual i with
  | FetchOutcome.err => true
  | FetchOutcome.ok ct body => !(isImageCT ct) || !(is_valid_image env.decode body minSize)

/-- The URL the worker will fetch for a candidate: the candidate itself
when it contains an image extension, else the resolver's answer. -/
def resolvedOf (env : Env) (u : String) : Option String := (resolveStep env u).1

/-- A candidate is ready in a state when it resolves and its target
file is present on disk and valid: exactly the situation in which
download_image short-circuits. -/
def ReadyP (env : Env) (minSize : Nat) (st : St) (u : String) : Prop :=
  u ≠ "" ∧ ∃ a, resolvedOf env u = some a ∧
    existsValid env.decode st.fs (generate_unique_filename a) minSize = true

/-- First tier of extract_image_url as the code implements it: og:image
then twitter:image, property attribute before name attribute. -/
def tier1 (doc : HtmlDoc) : Option String :=
  match metaTry doc.metas "og:image" with
  | some c => some c
  | none => metaTry doc.metas "twitter:image"

/-- Second tier: first img whose source carries a hint token. -/
def tier2 (join : String → String → String) (pageUrl : String) (doc : HtmlDoc) :
    Option String := (doc.imgs.find? hasHint).map (join pageUrl)

/-- Third tier: the first img with a source. -/
def tier3 (join : String → String → String) (pageUrl : String) (doc : HtmlDoc) :
    Option String := doc.imgs.head?.map (join pageUrl)

/-- Fourth tier: first anchor whose target contains an image extension. -/
def tier4 (join : String → String → String) (pageUrl : String) (doc : HtmlDoc) :
    Option String := (doc.anchors.find? containsImageExt).map (join pageUrl)

/-- Modelled from the spec: the extension of a reference, read as the
spec words it — the extension of the basename of the query-stripped
path.  Used to compare the claimed bypass condition with the code. -/
def specPathExt (u : String) : String := String.mk (splitextL (basenameL (splitQuery u.data))).2

/-- Modelled from the spec: a reference whose path extension is in the
known image-extension set (compared case-insensitively). -/
def specIsDirectRef (u : String) : Bool := IMAGE_EXTENSIONS.contains (lowerS (specPathExt u))

/-- Modelled from the spec: the claimed hint-token set of resolver tier
two, exactly the four tokens the spec lists. -/
def specHintTokens : List String := ["full", "large", "orig", "high-res"]

/-- Modelled from the spec: an img source containing one of the four
claimed hint tokens. -/
def specHasHint (src : String) : Bool := specHintTokens.any (fun t => strContains (lowerS src) t)

/-- Modelled from the spec: resolver tier two under the claimed token
set — the first hinted img source in document order. -/
def specTier2 (doc : HtmlDoc) : Option String := doc.imgs.find? specHasHint

/-- True for a meta tag that is an og:image or twitter:image tag (by
property or name attribute) with nonempty content. -/
def isSocialMeta (m : MetaTag) : Bool :=
  (m.prop == some "og:image" || m.nameAttr == some "og:image" ||
    m.prop == some "twitter:image" || m.nameAttr == some "twitter:image") &&
  (match m.content with
   | some c => c != ""
   | none => false)

/-- Modelled from the spec: resolver tier one with ties broken purely
by document order — the first og:image or twitter:image tag of the
document, whichever attribute names it. -/
def specTier1 (doc : HtmlDoc) : Option String :=
  (doc.metas.find? isSocialMeta).bind (fun m => m.content)

/-- Modelled from the spec: resolver tier four as claimed — the first
hyperlink whose target has (not merely contains) a known image
extension. -/
def specTier4 (doc : HtmlDoc) : Option String := doc.anchors.find? specIsDirectRef

/-! Sanity checks of the embedding against reference values computed by
the original Python functions (hashlib.md5 hexdigests and
generate_unique_filename outputs). -/

example : md5Hex "" = "d41d8cd98f00b204e9800998ecf8427e" := by decide
example : md5Hex "abc" = "900150983cd24fb0d6963f7d28e17f72" := by decide
example : md5Hex "http://a/b.jpg" = "853406d478c5dd894ef1857044dfd27c" := by decide
example : generate_unique_filename "http://a/b.jpg" = "b_853406d4.jpg" := by decide
example : generate_unique_filename "https://cdn.example.com/img/full_001.JPG?size=orig" =
    "full_001_552051f3.JPG" := by decide
example : generate_unique_filename "http://x.com/a.jpg.html" = "a.jpg_c685b7be.jpg" := by decide
example : generate_unique_filename "http://a/noext" = "noext_6dfe5fe0.jpg" := by decide

example :
    (retryPass ⟨fun _ => none, fun _ _ => FetchOutcome.ok "image/jpeg" [7],
        fun b => if b = [7] then some (200, 200) else none⟩ 100 1 [1, 0]
      ⟨[], [], ["page1", "http://a/b.jpg"]⟩).failedLog = ["http://a/b.jpg"] := by decide

example :
    (retryPass ⟨fun _ => none, fun _ _ => FetchOutcome.ok "image/jpeg" [7],
        fun b => if b = [7] then some (200, 200) else none⟩ 100 1 [0, 1]
      ⟨[], [], ["page1", "http://a/b.jpg"]⟩).failedLog = ["page1"] := by decide

example :
    (download_image ⟨fun _ => none, fun _ _ => FetchOutcome.err, fun _ => none⟩ 100 3
      "http://a/b.jpg" ⟨[], [], []⟩).2.1.failedLog = ["http://a/b.jpg"] := by decide

example :
    (download_image ⟨fun _ => none, fun _ _ => FetchOutcome.err,
        fun b => if b = [7] then some (200, 200) else none⟩ 100 3
      "http://a/b.jpg" ⟨[("b_853406d4.jpg", [7])], [], []⟩).1 = Outcome.skipped := by decide

/-! Basic lemmas about the filesystem model. -/

theorem fsGet_fsSet_self (fs : List (String × List Nat)) (n : String) (b : List Nat) :
    fsGet (fsSet fs n b) n = some b := by
  simp [fsGet, fsSet]

theorem fsGet_fsSet_ne (fs : List (String × List Nat)) (n m : String) (b : List Nat)
    (h : m ≠ n) : fsGet (fsSet fs m b) n = fsGet fs n := by
  simp [fsGet, fsSet, h]

theorem fsGet_fsRemove_ne (n m : String) (h : m ≠ n) :
    ∀ fs, fsGet (fsRemove fs m) n = fsGet fs n := by
  intro fs
  induction fs with
  | nil => rfl
  | cons p rest ih =>
    obtain ⟨k, v⟩ := p
    by_cases hk : k = m
    · subst hk
      simpa [fsRemove, fsGet, List.filter_cons, h] using ih
    · simp only [fsRemove, List.filter_cons] at ih ⊢
      simp [bne_iff_ne, hk, fsGet, ih]

theorem existsValid_congr (decode : List Nat → Option (Nat × Nat))
    (fs fs2 : List (String × List Nat)) (n : String) (minSize : Nat)
    (h : fsGet fs n = fsGet fs2 n) :
    existsValid decode fs n minSize = existsValid decode fs2 n minSize := by
  simp [existsValid, h]

/-! Projections of the resolution step. -/

theorem resolveStep_evs (env : Env) (u : String) :
    nFetch (resolveStep env u).2 = 0 ∧ nWrite (resolveStep env u).2 = 0 := by
  cases h : containsImageExt u <;>
    simp [resolveStep, h, nFetch, nWrite, List.countP_cons, isFetchEv, isWriteEv]

theorem resolveStep_direct (env : Env) (u : String) (h : containsImageExt u = true) :
    resolveStep env u = (some u, []) := by
  simp [resolveStep, h]

theorem resolveStep_page (env : Env) (u : String) (h : containsImageExt u = false) :
    resolveStep env u = (env.resolvePage u, [Ev.resolveFetch u]) := by
  simp [resolveStep, h]

/-! Step equations of the retry loop, one per code path of an attempt. -/

theorem dlLoop_zero (env : Env) (minSize : Nat) (actual imgName : String) (a : Nat) (st : St) :
    dlLoop env minSize actual imgName 0 a st =
      (Outcome.failed, { st with failedLog := st.failedLog ++ [actual] }, []) := rfl

theorem dlLoop_err (env : Env) (minSize : Nat) (actual imgName : String) (n a : Nat) (st : St)
    (h : env.fetchImg actual a = FetchOutcome.err) :
    dlLoop env minSize actual imgName (n + 1) a st =
      withEvs [Ev.jitter, Ev.fetchAttempt actual, Ev.backoff]
        (dlLoop env minSize actual imgName n (a + 1) st) := by
  simp [dlLoop, h]

theorem dlLoop_badct (env : Env) (minSize : Nat) (actual imgName : String) (n a : Nat)
    (st : St) (ct : String) (body : List Nat)
    (h : env.fetchImg actual a = FetchOutcome.ok ct body) (hct : isImageCT ct = false) :
    dlLoop env minSize actual imgName (n + 1) a st =
      withEvs [Ev.jitter, Ev.fetchAttempt actual]
        (dlLoop env minSize actual imgName n (a + 1) st) := by
  simp [dlLoop, h, hct]

theorem dlLoop_invalid (env : Env) (minSize : Nat) (actual imgName : String) (n a : Nat)
    (st : St) (ct : String) (body : List Nat)
    (h : env.fetchImg actual a = FetchOutcome.ok ct body) (hct : isImageCT ct = true)
    (hv : is_valid_image env.decode body minSize = false) :
    dlLoop env minSize actual imgName (n + 1) a st =
      withEvs [Ev.jitter, Ev.fetchAttempt actual, Ev.fileWrite imgName, Ev.fileRemove imgName]
        (dlLoop env minSize actual imgName n (a + 1)
          { st with fs := fsRemove (fsSet st.fs imgName body) imgName }) := by
  simp [dlLoop, h, hct, hv]

theorem dlLoop_valid (env : Env) (minSize : Nat) (actual imgName : String) (n a : Nat)
    (st : St) (ct : String) (body : List Nat)
    (h : env.fetchImg actual a = FetchOutcome.ok ct body) (hct : isImageCT ct = true)
    (hv : is_valid_image env.decode body minSize = true) :
    dlLoop env minSize actual imgName (n + 1) a st =
      (Outcome.success,
        { st with fs := fsSet st.fs imgName body, successLog := st.successLog ++ [actual] },
        [Ev.jitter, Ev.fetchAttempt actual, Ev.fileWrite imgName]) := by
  simp [dlLoop, h, hct, hv]

/-! Invariants of the retry loop, by induction on remaining attempts. -/

theorem dlLoop_not_skipped (env : Env) (minSize : Nat) (actual imgName : String) :
    ∀ (n a : Nat) (st : St), (dlLoop env minSize actual imgName n a st).1 ≠ Outcome.skipped := by
  intro n
  induction n with
  | zero => intro a st; simp [dlLoop_zero]
  | succ n ih =>
    intro a st
    cases hf : env.fetchImg actual a with
    | err =>
      rw [dlLoop_err env minSize actual imgName n a st hf]
      simpa [withEvs] using ih (a + 1) st
    | ok ct body =>
      cases hct : isImageCT ct with
      | false =>
        rw [dlLoop_badct env minSize actual imgName n a st ct body hf hct]
        simpa [withEvs] using ih (a + 1) st
      | true =>
        cases hv : is_valid_image env.decode body minSize with
        | false =>
          rw [dlLoop_invalid env minSize actual imgName n a st ct body hf hct hv]
          simpa [withEvs] using ih (a + 1) _
        | true =>
          rw [dlLoop_valid env minSize actual imgName n a st ct body hf hct hv]
          simp

theorem dlLoop_nFetch_le (env : Env) (minSize : Nat) (actual imgName : String) :
    ∀ (n a : Nat) (st : St), nFetch (dlLoop env minSize actual imgName n a st).2.2 ≤ n := by
  intro n
  induction n with
  | zero => intro a st; simp [dlLoop_zero, nFetch]
  | succ n ih =>
    intro a st
    cases hf : env.fetchImg actual a with
    | err =>
      rw [dlLoop_err env minSize actual imgName n a st hf]
      have h2 := ih (a + 1) st
      simp [nFetch, withEvs, List.countP_append, List.countP_cons, List.countP_nil,
        isFetchEv] at h2 ⊢ <;> omega
    | ok ct body =>
      cases hct : isImageCT ct with
      | false =>
        rw [dlLoop_badct env minSize actual imgName n a st ct body hf hct]
        have h2 := ih (a + 1) st
        simp [nFetch, withEvs, List.countP_append, List.countP_cons, List.countP_nil,
          isFetchEv] at h2 ⊢ <;> omega
      | true =>
        cases hv : is_valid_image env.decode body minSize with
        | false =>
          rw [dlLoop_invalid env minSize actual imgName n a st ct body hf hct hv]
          have h2 := ih (a + 1) { st with fs := fsRemove (fsSet st.fs imgName body) imgName }
          simp [nFetch, withEvs, List.countP_append, List.countP_cons, List.countP_nil,
            isFetchEv] at h2 ⊢ <;> omega
        | true =>
          rw [dlLoop_valid env minSize actual imgName n a st ct body hf hct hv]
          simp [nFetch, List.countP_cons, List.countP_nil, isFetchEv]

theorem dlLoop_nResolve (env : Env) (minSize : Nat) (actual imgName : String) :
    ∀ (n a : Nat) (st : St), nResolve (dlLoop env minSize actual imgName n a st).2.2 = 0 := by
  intro n
  induction n with
  | zero => intro a st; simp [dlLoop_zero, nResolve]
  | succ n ih =>
    intro a st
    cases hf : env.fetchImg actual a with
    | err =>
      rw [dlLoop_err env minSize actual imgName n a st hf]
      simpa [withEvs, nResolve, List.countP_append, List.countP_cons, isResolveEv]
        using ih (a + 1) st
    | ok ct body =>
      cases hct : isImageCT ct with
      | false =>
        rw [dlLoop_badct env minSize actual imgName n a st ct body hf hct]
        simpa [withEvs, nResolve, List.countP_append, List.countP_cons, isResolveEv]
          using ih (a + 1) st
      | true =>
        cases hv : is_valid_image env.decode body minSize with
        | false =>
          rw [dlLoop_invalid env minSize actual imgName n a st ct body hf hct hv]
          simpa [withEvs, nResolve, List.countP_append, List.countP_cons, isResolveEv]
            using ih (a + 1) _
        | true =>
          rw [dlLoop_valid env minSize actual imgName n a st ct body hf hct hv]
          simp [nResolve, List.countP_cons, isResolveEv]

theorem dlLoop_fetch_url (env : Env) (minSize : Nat) (actual imgName : String) :
    ∀ (n a : Nat) (st : St) (v : String),
      Ev.fetchAttempt v ∈ (dlLoop env minSize actual imgName n a st).2.2 → v = actual := by
  intro n
  induction n with
  | zero => intro a st v hv; simp [dlLoop_zero] at hv
  | succ n ih =>
    intro a st v hv
    cases hf : env.fetchImg actual a with
    | err =>
      rw [dlLoop_err env minSize actual imgName n a st hf] at hv
      simp [withEvs] at hv
      rcases hv with h | h
      · exact h
      · exact ih (a + 1) st v h
    | ok ct body =>
      cases hct : isImageCT ct with
      | false =>
        rw [dlLoop_badct env minSize actual imgName n a st ct body hf hct] at hv
        simp [withEvs] at hv
        rcases hv with h | h
        · exact h
        · exact ih (a + 1) st v h
      | true =>
        cases hvd : is_valid_image env.decode body minSize with
        | false =>
          rw [dlLoop_invalid env minSize actual imgName n a st ct body hf hct hvd] at hv
          simp [withEvs] at hv
          rcases hv with h | h
          · exact h
          · exact ih (a + 1) _ v h
        | true =>
          rw [dlLoop_valid env minSize actual imgName n a st ct body hf hct hvd] at hv
          simpa using hv

theorem dlLoop_fs_other (env : Env) (minSize : Nat) (actual imgName nm : String)
    (hne : imgName ≠ nm) :
    ∀ (n a : Nat) (st : St),
      fsGet (dlLoop env minSize actual imgName n a st).2.1.fs nm = fsGet st.fs nm := by
  intro n
  induction n with
  | zero => intro a st; simp [dlLoop_zero]
  | succ n ih =>
    intro a st
    cases hf : env.fetchImg actual a with
    | err =>
      rw [dlLoop_err env minSize actual imgName n a st hf]
      simpa [withEvs] using ih (a + 1) st
    | ok ct body =>
      cases hct : isImageCT ct with
      | false =>
        rw [dlLoop_badct env minSize actual imgName n a st ct body hf hct]
        simpa [withEvs] using ih (a + 1) st
      | true =>
        cases hv : is_valid_image env.decode body minSize with
        | false =>
          rw [dlLoop_invalid env minSize actual imgName n a st ct body hf hct hv]
          have h2 := ih (a + 1) { st with fs := fsRemove (fsSet st.fs imgName body) imgName }
          simp only [withEvs] at h2 ⊢
          rw [h2]
          simp [fsGet_fsRemove_ne nm imgName hne, fsGet_fsSet_ne st.fs nm imgName body hne]
        | true =>
          rw [dlLoop_valid env minSize actual imgName n a st ct body hf hct hv]
          simp [fsGet_fsSet_ne st.fs nm imgName body hne]

theorem dlLoop_success_fs (env : Env) (minSize : Nat) (actual imgName : String) :
    ∀ (n a : Nat) (st : St), (dlLoop env minSize actual imgName n a st).1 = Outcome.success →
      existsValid env.decode (dlLoop env minSize actual imgName n a st).2.1.fs imgName
        minSize = true := by
  intro n
  induction n with
  | zero => intro a st h; simp [dlLoop_zero] at h
  | succ n ih =>
    intro a st h
    cases hf : env.fetchImg actual a with
    | err =>
      rw [dlLoop_err env minSize actual imgName n a st hf] at h ⊢
      simp only [withEvs] at h ⊢
      exact ih (a + 1) st h
    | ok ct body =>
      cases hct : isImageCT ct with
      | false =>
        rw [dlLoop_badct env minSize actual imgName n a st ct body hf hct] at h ⊢
        simp only [withEvs] at h ⊢
        exact ih (a + 1) st h
      | true =>
        cases hv : is_valid_image env.decode body minSize with
        | false =>
          rw [dlLoop_invalid env minSize actual imgName n a st ct body hf hct hv] at h ⊢
          simp only [withEvs] at h ⊢
          exact ih (a + 1) _ h
        | true =>
          rw [dlLoop_valid env minSize actual imgName n a st ct body hf hct hv]
          simp [existsValid, fsGet_fsSet_self, hv]

theorem dlLoop_allFail (env : Env) (minSize : Nat) (actual imgName : String)
    (h : ∀ i, attemptFails env minSize actual i = true) :
    ∀ (n a : Nat) (st : St),
      (dlLoop env minSize actual imgName n a st).1 = Outcome.failed ∧
      (dlLoop env minSize actual imgName n a st).2.1.failedLog = st.failedLog ++ [actual] ∧
      (dlLoop env minSize actual imgName n a st).2.1.successLog = st.successLog ∧
      nFetch (dlLoop env minSize actual imgName n a st).2.2 = n := by
  intro n
  induction n with
  | zero => intro a st; simp [dlLoop_zero, nFetch]
  | succ n ih =>
    intro a st
    cases hf : env.fetchImg actual a with
    | err =>
      rw [dlLoop_err env minSize actual imgName n a st hf]
      obtain ⟨i1, i2, i3, i4⟩ := ih (a + 1) st
      refine ⟨by simpa [withEvs] using i1, by simpa [withEvs] using i2,
        by simpa [withEvs] using i3, ?_⟩
      simp [nFetch, withEvs, List.countP_append, List.countP_cons, List.countP_nil,
        isFetchEv] at i4 ⊢ <;> omega
    | ok ct body =>
      have hi2 : (!isImageCT ct || !is_valid_image env.decode body minSize) = true := by
        have hi := h a
        unfold attemptFails at hi
        rw [hf] at hi
        exact hi
      cases hct : isImageCT ct with
      | false =>
        rw [dlLoop_badct env minSize actual imgName n a st ct body hf hct]
        obtain ⟨i1, i2, i3, i4⟩ := ih (a + 1) st
        refine ⟨by simpa [withEvs] using i1, by simpa [withEvs] using i2,
          by simpa [withEvs] using i3, ?_⟩
        simp [nFetch, withEvs, List.countP_append, List.countP_cons, List.countP_nil,
          isFetchEv] at i4 ⊢ <;> omega
      | true =>
        have hv : is_valid_image env.decode body minSize = false := by
          rw [hct] at hi2
          simpa using hi2
        rw [dlLoop_invalid env minSize actual imgName n a st ct body hf hct hv]
        obtain ⟨i1, i2, i3, i4⟩ :=
          ih (a + 1) { st with fs := fsRemove (fsSet st.fs imgName body) imgName }
        refine ⟨by simpa [withEvs] using i1, by simpa [withEvs] using i2,
          by simpa [withEvs] using i3, ?_⟩
        simp [nFetch, withEvs, List.countP_append, List.countP_cons, List.countP_nil,
          isFetchEv] at i4 ⊢ <;> omega

/-! Characterization of one worker invocation: the four code paths of
download_image, as rewrite equations. -/

theorem download_image_empty (env : Env) (minSize maxRetries : Nat) (st : St) :
    download_image env minSize maxRetries "" st = (Outcome.failed, st, []) := rfl

theorem download_image_noresolve (env : Env) (minSize maxRetries : Nat) (u : String)
    (st : St) (hu : u ≠ "") (ha : resolvedOf env u = none) :
    download_image env minSize maxRetries u st =
      (Outcome.failed, { st with failedLog := st.failedLog ++ [u] },
        (resolveStep env u).2) := by
  unfold download_image
  rw [if_neg hu]
  unfold resolvedOf at ha
  rw [ha]

theorem download_image_skip (env : Env) (minSize maxRetries : Nat) (u a : String) (st : St)
    (hu : u ≠ "") (ha : resolvedOf env u = some a)
    (hv : existsValid env.decode st.fs (generate_unique_filename a) minSize = true) :
    download_image env minSize maxRetries u st =
      (Outcome.skipped, st, (resolveStep env u).2) := by
  unfold download_image
  rw [if_neg hu]
  unfold resolvedOf at ha
  rw [ha]
  simp [hv]

theorem download_image_loop (env : Env) (minSize maxRetries : Nat) (u actual : String)
    (st : St) (hu : u ≠ "") (ha : resolvedOf env u = some actual)
    (hex : existsValid env.decode st.fs (generate_unique_filename actual) minSize = false) :
    download_image env minSize maxRetries u st =
      withEvs (resolveStep env u).2
        (dlLoop env minSize actual (generate_unique_filename actual) maxRetries 0 st) := by
  unfold download_image
  rw [if_neg hu]
  unfold resolvedOf at ha
  rw [ha]
  simp [hex]

/-! Worker-level invariants assembled from the loop invariants. -/

theorem download_image_preserves_valid (env : Env) (minSize maxRetries : Nat)
    (u nm : String) (st : St)
    (hv : existsValid env.decode st.fs nm minSize = true) :
    existsValid env.decode (download_image env minSize maxRetries u st).2.1.fs nm
      minSize = true := by
  by_cases hu : u = ""
  · subst hu
    rw [download_image_empty]
    exact hv
  · cases hres : resolvedOf env u with
    | none =>
      rw [download_image_noresolve env minSize maxRetries u st hu hres]
      exact hv
    | some actual =>
      cases hex : existsValid env.decode st.fs (generate_unique_filename actual) minSize with
      | true =>
        rw [download_image_skip env minSize maxRetries u actual st hu hres hex]
        exact hv
      | false =>
        rw [download_image_loop env minSize maxRetries u actual st hu hres hex]
        have hne : generate_unique_filename actual ≠ nm := by
          intro hEq
          rw [hEq, hv] at hex
          cases hex
        have hfs := dlLoop_fs_other env minSize actual (generate_unique_filename actual) nm
          hne maxRetries 0 st
        simp only [withEvs]
        rw [existsValid_congr env.decode _ st.fs nm minSize hfs]
        exact hv

theorem download_image_skipped_state (env : Env) (minSize maxRetries : Nat) (u : String)
    (st : St) (h : (download_image env minSize maxRetries u st).1 = Outcome.skipped) :
    (download_image env minSize maxRetries u st).2.1 = st ∧ ReadyP env minSize st u := by
  by_cases hu : u = ""
  · subst hu
    rw [download_image_empty] at h
    cases h
  · cases hres : resolvedOf env u with
    | none =>
      rw [download_image_noresolve env minSize maxRetries u st hu hres] at h
      cases h
    | some actual =>
      cases hex : existsValid env.decode st.fs (generate_unique_filename actual) minSize with
      | false =>
        rw [download_image_loop env minSize maxRetries u actual st hu hres hex] at h
        exact absurd (by simpa [withEvs] using h)
          (dlLoop_not_skipped env minSize actual (generate_unique_filename actual) maxRetries 0 st)
      | true =>
        rw [download_image_skip env minSize maxRetries u actual st hu hres hex]
        exact ⟨rfl, hu, actual, hres, hex⟩

theorem download_image_success_ready (env : Env) (minSize maxRetries : Nat) (u : String)
    (st : St) (h : (download_image env minSize maxRetries u st).1 = Outcome.success) :
    ReadyP env minSize (download_image env minSize maxRetries u st).2.1 u := by
  by_cases hu : u = ""
  · subst hu
    rw [download_image_empty] at h
    cases h
  · cases hres : resolvedOf env u with
    | none =>
      rw [download_image_noresolve env minSize maxRetries u st hu hres] at h
      cases h
    | some actual =>
      cases hex : existsValid env.decode st.fs (generate_unique_filename actual) minSize with
      | true =>
        rw [download_image_skip env minSize maxRetries u actual st hu hres hex] at h
        cases h
      | false =>
        rw [download_image_loop env minSize maxRetries u actual st hu hres hex] at h ⊢
        refine ⟨hu, actual, hres, ?_⟩
        simp only [withEvs] at h ⊢
        exact dlLoop_success_fs env minSize actual (generate_unique_filename actual)
          maxRetries 0 st h

theorem download_image_preserves_ready (env : Env) (minSize maxRetries : Nat)
    (u u2 : String) (st : St) (h : ReadyP env minSize st u) :
    ReadyP env minSize (download_image env minSize maxRetries u2 st).2.1 u := by
  obtain ⟨hu, a, ha, hv⟩ := h
  exact ⟨hu, a, ha, download_image_preserves_valid env minSize maxRetries u2 _ st hv⟩

theorem download_image_ok_ready (env : Env) (minSize maxRetries : Nat) (u : String)
    (st : St) (h : (download_image env minSize maxRetries u st).1 ≠ Outcome.failed) :
    ReadyP env minSize (download_image env minSize maxRetries u st).2.1 u := by
  cases ho : (download_image env minSize maxRetries u st).1 with
  | failed => exact absurd ho h
  | success => exact download_image_success_ready env minSize maxRetries u st ho
  | skipped =>
    obtain ⟨hst, hr⟩ := download_image_skipped_state env minSize maxRetries u st ho
    rw [hst]
    exact hr

theorem download_image_exhaust (env : Env) (minSize maxRetries : Nat) (u actual : String)
    (st : St) (hu : u ≠ "") (ha : resolvedOf env u = some actual)
    (hex : existsValid env.decode st.fs (generate_unique_filename actual) minSize = false)
    (hf : ∀ i, attemptFails env minSize actual i = true) :
    (download_image env minSize maxRetries u st).1 = Outcome.failed ∧
    (download_image env minSize maxRetries u st).2.1.failedLog = st.failedLog ++ [actual] ∧
    (download_image env minSize maxRetries u st).2.1.successLog = st.successLog ∧
    nFetch (download_image env minSize maxRetries u st).2.2 = maxRetries := by
  rw [download_image_loop env minSize maxRetries u actual st hu ha hex]
  obtain ⟨i1, i2, i3, i4⟩ :=
    dlLoop_allFail env minSize actual (generate_unique_filename actual) hf maxRetries 0 st
  refine ⟨by simpa [withEvs] using i1, by simpa [withEvs] using i2,
    by simpa [withEvs] using i3, ?_⟩
  have h0 := (resolveStep_evs env u).1
  simp only [nFetch] at h0 i4
  simp only [withEvs, nFetch, List.countP_append]
  omega

theorem download_image_first_success (env : Env) (minSize maxRetries : Nat)
    (u actual : String) (st : St) (ct : String) (body : List Nat)
    (hu : u ≠ "") (ha : resolvedOf env u = some actual)
    (hex : existsValid env.decode st.fs (generate_unique_filename actual) minSize = false)
    (hok : env.fetchImg actual 0 = FetchOutcome.ok ct body)
    (hct : isImageCT ct = true) (hv : is_valid_image env.decode body minSize = true)
    (hm : 0 < maxRetries) :
    (download_image env minSize maxRetries u st).1 = Outcome.success ∧
    (download_image env minSize maxRetries u st).2.1.successLog = st.successLog ++ [actual] ∧
    (download_image env minSize maxRetries u st).2.1.failedLog = st.failedLog := by
  obtain ⟨m, rfl⟩ : ∃ m, maxRetries = m + 1 := ⟨maxRetries - 1, by omega⟩
  rw [download_image_loop env minSize (m + 1) u actual st hu ha hex]
  rw [dlLoop_valid env minSize actual (generate_unique_filename actual) m 0 st ct body
    hok hct hv]
  simp [withEvs]

/-! Pass-level lemmas: a whole pipeline pass over a candidate list. -/

theorem runPass_nil (env : Env) (minSize maxRetries : Nat) (st : St) :
    runPass env minSize maxRetries [] st = (st, [], []) := rfl

theorem runPass_cons (env : Env) (minSize maxRetries : Nat) (u : String)
    (rest : List String) (st : St) :
    runPass env minSize maxRetries (u :: rest) st =
      ((runPass env minSize maxRetries rest
          (download_image env minSize maxRetries u st).2.1).1,
        (download_image env minSize maxRetries u st).1 ::
          (runPass env minSize maxRetries rest
            (download_image env minSize maxRetries u st).2.1).2.1,
        (download_image env minSize maxRetries u st).2.2 ++
          (runPass env minSize maxRetries rest
            (download_image env minSize maxRetries u st).2.1).2.2) := rfl

theorem runPass_preserves_ready (env : Env) (minSize maxRetries : Nat) (u : String) :
    ∀ (urls : List String) (st : St), ReadyP env minSize st u →
      ReadyP env minSize (runPass env minSize maxRetries urls st).1 u := by
  intro urls
  induction urls with
  | nil => intro st h; exact h
  | cons v rest ih =>
    intro st h
    rw [runPass_cons]
    exact ih _ (download_image_preserves_ready env minSize maxRetries u v st h)

theorem runPass_all_ready (env : Env) (minSize maxRetries : Nat) :
    ∀ (urls : List String) (st : St),
      (∀ o ∈ (runPass env minSize maxRetries urls st).2.1, o ≠ Outcome.failed) →
      ∀ u ∈ urls, ReadyP env minSize (runPass env minSize maxRetries urls st).1 u := by
  intro urls
  induction urls with
  | nil => intro st h u hu; cases hu
  | cons v rest ih =>
    intro st h u hu
    have hv : (download_image env minSize maxRetries v st).1 ≠ Outcome.failed := by
      apply h
      rw [runPass_cons]
      exact List.mem_cons_self _ _
    rcases List.mem_cons.mp hu with rfl | hmem
    · have hr := download_image_ok_ready env minSize maxRetries u st hv
      have h2 := runPass_preserves_ready env minSize maxRetries u rest
        (download_image env minSize maxRetries u st).2.1 hr
      rw [runPass_cons]
      exact h2
    · have h2 : ∀ o ∈ (runPass env minSize maxRetries rest
          (download_image env minSize maxRetries v st).2.1).2.1, o ≠ Outcome.failed := by
        intro o ho
        apply h
        rw [runPass_cons]
        exact List.mem_cons_of_mem _ ho
      have h3 := ih (download_image env minSize maxRetries v st).2.1 h2 u hmem
      rw [runPass_cons]
      exact h3

theorem runPass_ready_skips (env : Env) (minSize maxRetries : Nat) :
    ∀ (urls : List String) (st : St),
      (∀ u ∈ urls, ReadyP env minSize st u) →
      (runPass env minSize maxRetries urls st).1 = st ∧
      nWrite (runPass env minSize maxRetries urls st).2.2 = 0 ∧
      nFetch (runPass env minSize maxRetries urls st).2.2 = 0 := by
  intro urls
  induction urls with
  | nil => intro st h; exact ⟨rfl, rfl, rfl⟩
  | cons v rest ih =>
    intro st h
    obtain ⟨hu, a, ha, hval⟩ := h v (List.mem_cons_self v rest)
    rw [runPass_cons, download_image_skip env minSize maxRetries v a st hu ha hval]
    obtain ⟨j1, j2, j3⟩ := ih st (fun u hu2 => h u (List.mem_cons_of_mem v hu2))
    obtain ⟨m1, m2⟩ := resolveStep_evs env v
    refine ⟨j1, ?_, ?_⟩
    · simp only [nWrite, List.countP_append] at j2 m2 ⊢
      omega
    · simp only [nFetch, List.countP_append] at j3 m1 ⊢
      omega

/-! Digest support lemmas for the naming claim. -/

theorem hexDigitCh_mem (n : Nat) (h : n < 16) : hexDigitCh n ∈ "0123456789abcdef".data := by
  interval_cases n <;> decide

theorem md5Bytes_len (s : String) : (md5Bytes s).length = 16 := by
  simp [md5Bytes, leBytes4]

theorem leBytes4_lt (w : Nat) : ∀ b ∈ leBytes4 w, b < 256 := by
  intro b hb
  simp only [leBytes4, List.mem_cons, List.not_mem_nil, or_false] at hb
  rcases hb with h | h | h | h <;> omega

theorem md5Bytes_lt (s : String) : ∀ b ∈ md5Bytes s, b < 256 := by
  intro b hb
  unfold md5Bytes at hb
  rcases List.mem_append.mp hb with h | h
  case inr => exact leBytes4_lt _ b h
  rcases List.mem_append.mp h with h2 | h2
  case inr => exact leBytes4_lt _ b h2
  rcases List.mem_append.mp h2 with h3 | h3 <;> exact leBytes4_lt _ b h3

theorem hexFold_mem (l : List Nat) (hl : ∀ b ∈ l, b < 256) :
    ∀ c ∈ l.foldr (fun b acc => hexDigitCh (b / 16) :: hexDigitCh (b % 16) :: acc) [],
      c ∈ "0123456789abcdef".data := by
  induction l with
  | nil => intro c hc; cases hc
  | cons b rest ih =>
    intro c hc
    simp only [List.foldr_cons, List.mem_cons] at hc
    have hb := hl b (List.mem_cons_self b rest)
    rcases hc with rfl | rfl | hc
    · exact hexDigitCh_mem _ (by omega)
    · exact hexDigitCh_mem _ (by omega)
    · exact ih (fun x hx => hl x (List.mem_cons_of_mem _ hx)) c hc

theorem hexFold_len (l : List Nat) :
    (l.foldr (fun b acc => hexDigitCh (b / 16) :: hexDigitCh (b % 16) :: acc) []).length =
      2 * l.length := by
  induction l with
  | nil => rfl
  | cons b rest ih =>
    simp only [List.foldr_cons, List.length_cons, ih]
    omega

theorem md5HexChars_len (s : String) : (md5HexChars s).length = 32 := by
  unfold md5HexChars
  rw [hexFold_len, md5Bytes_len]

theorem hash8_len (u : String) : (hash8 u).length = 8 := by
  show ((md5HexChars u).take 8).length = 8
  rw [List.length_take, md5HexChars_len]
  decide

theorem hash8_mem (u : String) : ∀ c ∈ (hash8 u).data, c ∈ "0123456789abcdef".data := by
  intro c hc
  have hm : c ∈ md5HexChars u := List.mem_of_mem_take hc
  exact hexFold_mem (md5Bytes u) (md5Bytes_lt u) c hm

/-- C9: the validator accepts exactly when the bytes decode as a known
raster image whose width and height are both at least the minimum
dimension; a parse failure is classified corrupt, a structurally valid
but undersized image too small, and no other check is applied. -/
theorem C9_validator (decode : List Nat → Option (Nat × Nat)) (bytes : List Nat)
    (minSize : Nat) :
    (is_valid_image decode bytes minSize = true ↔
      ∃ w h, decode bytes = some (w, h) ∧ minSize ≤ w ∧ minSize ≤ h) ∧
    (is_valid_image decode bytes minSize = true ↔
      validationReason decode bytes minSize = VResult.valid) ∧
    (decode bytes = none → validationReason decode bytes minSize = VResult.corrupt) ∧
    (∀ w h, decode bytes = some (w, h) → (w < minSize ∨ h < minSize) →
      validationReason decode bytes minSize = VResult.tooSmall) := by
  cases hd : decode bytes with
  | none => simp [is_valid_image, validationReason, hd]
  | some wh =>
    obtain ⟨w, h⟩ := wh
    by_cases h1 : w < minSize
    · have hb : (w < minSize || h < minSize) = true := by simp [h1]
      refine ⟨?_, ?_, ?_, ?_⟩
      · simp only [is_valid_image, hd, hb]
        constructor
        · intro hfalse; cases hfalse
        · rintro ⟨w2, h2, heq, hw2, hh2⟩
          injection heq with heq2
          injection heq2 with hw hh
          omega
      · simp [is_valid_image, validationReason, hd, hb]
      · intro hnone; exact Option.noConfusion hnone
      · intro w2 h2 heq hlt
        simp [validationReason, hd, hb]
    · by_cases h2 : h < minSize
      · have hb : (w < minSize || h < minSize) = true := by simp [h2]
        refine ⟨?_, ?_, ?_, ?_⟩
        · simp only [is_valid_image, hd, hb]
          constructor
          · intro hfalse; cases hfalse
          · rintro ⟨w2, h2b, heq, hw2, hh2⟩
            injection heq with heq2
            injection heq2 with hw hh
            omega
        · simp [is_valid_image, validationReason, hd, hb]
        · intro hnone; exact Option.noConfusion hnone
        · intro w2 h2b heq hlt
          simp [validationReason, hd, hb]
      · have hb : (w < minSize || h < minSize) = false := by
          simp [h1, h2]
        refine ⟨?_, ?_, ?_, ?_⟩
        · simp only [is_valid_image, hd, hb]
          constructor
          · intro _; exact ⟨w, h, rfl, by omega, by omega⟩
          · intro _; rfl
        · simp [is_valid_image, validationReason, hd, hb]
        · intro hnone; exact Option.noConfusion hnone
        · intro w2 h2b heq hlt
          injection heq with heq2
          injection heq2 with hw hh
          subst hw
          subst hh
          omega

/-- C9 witness: the validator at a concrete decoder and input, with the
implications of the theorem discharged on concrete values. -/
theorem C9_validator_witness :
    validationReason (fun b => if b = [7] then some (50, 50) else none) [7] 100 =
      VResult.tooSmall ∧
    validationReason (fun b => if b = [7] then some (50, 50) else none) [9] 100 =
      VResult.corrupt :=
  ⟨(C9_validator (fun b => if b = [7] then some (50, 50) else none) [7] 100).2.2.2
      50 50 (by decide) (by decide),
    (C9_validator (fun b => if b = [7] then some (50, 50) else none) [9] 100).2.2.1
      (by decide)⟩

/-- C6: the generated filename is exactly the query-stripped basename
without its extension, an underscore, the 8-character digest, then the
extension: the digest has length 8 and consists of lowercase hex digits;
the chosen extension is the default ".jpg" or a recognized extension,
and a nonempty recognized extension is kept verbatim (case preserved). -/
theorem C6_naming (u : String) :
    generate_unique_filename u =
      String.mk (splitextL (stripQueryBase u)).1 ++ "_" ++ hash8 u ++ extChosen u ∧
    (hash8 u).length = 8 ∧
    (∀ c ∈ (hash8 u).data, c ∈ "0123456789abcdef".data) ∧
    (extChosen u = ".jpg" ∨ lowerS (extChosen u) ∈ IMAGE_EXTENSIONS) ∧
    (∀ e, e = String.mk (splitextL (stripQueryBase u)).2 → e ≠ "" →
      lowerS e ∈ IMAGE_EXTENSIONS → extChosen u = e) := by
  refine ⟨rfl, hash8_len u, hash8_mem u, ?_, ?_⟩
  · unfold extChosen
    by_cases hc : String.mk (splitextL (stripQueryBase u)).2 = "" ∨
        lowerS (String.mk (splitextL (stripQueryBase u)).2) ∉ IMAGE_EXTENSIONS
    · rw [if_pos hc]
      left
      rfl
    · rw [if_neg hc]
      right
      push_neg at hc
      exact hc.2
  · intro e he hne hmem
    subst he
    unfold extChosen
    have hcond : ¬(String.mk (splitextL (stripQueryBase u)).2 = "" ∨
        lowerS (String.mk (splitextL (stripQueryBase u)).2) ∉ IMAGE_EXTENSIONS) := by
      push_neg
      exact ⟨hne, hmem⟩
    rw [if_neg hcond]

/-- C6 witness: the scenario URL of the spec, showing the preserved-case
.JPG extension, the 8-character digest, and the exact generated name. -/
theorem C6_naming_witness :
    extChosen "https://cdn.example.com/img/full_001.JPG?size=orig" = ".JPG" ∧
    (hash8 "https://cdn.example.com/img/full_001.JPG?size=orig").length = 8 ∧
    generate_unique_filename "https://cdn.example.com/img/full_001.JPG?size=orig" =
      "full_001_552051f3.JPG" :=
  ⟨(C6_naming "https://cdn.example.com/img/full_001.JPG?size=orig").2.2.2.2 ".JPG"
      (by decide) (by decide) (by decide),
    (C6_naming "https://cdn.example.com/img/full_001.JPG?size=orig").2.1,
    by decide⟩

/-- C4 (amended): resolution is bypassed exactly when the reference
contains a known image extension as a case-insensitive substring
anywhere in the URL (not when its path extension is in the set): a
matching nonempty reference is fetched unchanged with zero resolution
calls, and a non-matching nonempty reference goes through the resolver
exactly once. -/
theorem C4_resolution_bypass (env : Env) (minSize maxRetries : Nat) (u : String) (st : St)
    (hu : u ≠ "") :
    (containsImageExt u = true →
      resolvedOf env u = some u ∧
      nResolve (download_image env minSize maxRetries u st).2.2 = 0 ∧
      (∀ v, Ev.fetchAttempt v ∈ (download_image env minSize maxRetries u st).2.2 →
        v = u)) ∧
    (containsImageExt u = false →
      resolvedOf env u = env.resolvePage u ∧
      nResolve (download_image env minSize maxRetries u st).2.2 = 1) := by
  constructor
  · intro hd
    have hres : resolvedOf env u = some u := by
      unfold resolvedOf
      rw [resolveStep_direct env u hd]
    have hevs : (resolveStep env u).2 = [] := by rw [resolveStep_direct env u hd]
    refine ⟨hres, ?_, ?_⟩
    · cases hex : existsValid env.decode st.fs (generate_unique_filename u) minSize with
      | true =>
        rw [download_image_skip env minSize maxRetries u u st hu hres hex, hevs]
        rfl
      | false =>
        rw [download_image_loop env minSize maxRetries u u st hu hres hex]
        simp only [withEvs, hevs, List.nil_append]
        exact dlLoop_nResolve env minSize u (generate_unique_filename u) maxRetries 0 st
    · intro v hv
      cases hex : existsValid env.decode st.fs (generate_unique_filename u) minSize with
      | true =>
        rw [download_image_skip env minSize maxRetries u u st hu hres hex, hevs] at hv
        simp at hv
      | false =>
        rw [download_image_loop env minSize maxRetries u u st hu hres hex] at hv
        simp only [withEvs, hevs, List.nil_append] at hv
        exact dlLoop_fetch_url env minSize u (generate_unique_filename u) maxRetries 0 st v hv
  · intro hd
    have hres : resolvedOf env u = env.resolvePage u := by
      unfold resolvedOf
      rw [resolveStep_page env u hd]
    have hevs : (resolveStep env u).2 = [Ev.resolveFetch u] := by
      rw [resolveStep_page env u hd]
    refine ⟨hres, ?_⟩
    cases hro : env.resolvePage u with
    | none =>
      rw [download_image_noresolve env minSize maxRetries u st hu (by rw [hres, hro])]
      rw [hevs]
      rfl
    | some a =>
      cases hex : existsValid env.decode st.fs (generate_unique_filename a) minSize with
      | true =>
        rw [download_image_skip env minSize maxRetries u a st hu (by rw [hres, hro]) hex,
          hevs]
        rfl
      | false =>
        rw [download_image_loop env minSize maxRetries u a st hu (by rw [hres, hro]) hex]
        have h0 := dlLoop_nResolve env minSize a (generate_unique_filename a) maxRetries 0 st
        simp only [nResolve] at h0
        simp [withEvs, hevs, nResolve, List.countP_append, List.countP_cons,
          List.countP_nil, isResolveEv, h0]

/-- C4 witness: a direct image URL is downloaded with zero resolution
calls, via the theorem at a concrete environment. -/
theorem C4_witness :
    nResolve (download_image ⟨fun _ => none, fun _ _ => FetchOutcome.err, fun _ => none⟩
      100 1 "http://a/b.jpg" ⟨[], [], []⟩).2.2 = 0 :=
  (((C4_resolution_bypass ⟨fun _ => none, fun _ _ => FetchOutcome.err, fun _ => none⟩
    100 1 "http://a/b.jpg" ⟨[], [], []⟩ (by decide)).1 (by decide)).2).1

/-- C4 counterexample: the URL http://x.com/a.jpg.html has path
extension .html, which is not in the image-extension set, yet the code
bypasses resolution entirely (zero resolution fetches) because ".jpg"
occurs as a substring of the URL — refuting the claimed
path/extension-membership bypass condition. -/
theorem C4_counterexample :
    specIsDirectRef "http://x.com/a.jpg.html" = false ∧
    containsImageExt "http://x.com/a.jpg.html" = true ∧
    nResolve (download_image ⟨fun _ => none, fun _ _ => FetchOutcome.err, fun _ => none⟩
      100 1 "http://x.com/a.jpg.html" ⟨[], [], []⟩).2.2 = 0 := by decide

/-- C5 (amended): a raised request error (network failure, timeout or
non-2xx status) continues to the next attempt after the longer backoff
sleep; a non-image Content-Type declaration continues immediately to the
next attempt with no backoff, no file write and no file removal.
Neither path counts as a structural validation failure. -/
theorem C5_attempt_rejections (env : Env) (minSize : Nat) (actual imgName : String)
    (n a : Nat) (st : St) :
    (env.fetchImg actual a = FetchOutcome.err →
      dlLoop env minSize actual imgName (n + 1) a st =
        withEvs [Ev.jitter, Ev.fetchAttempt actual, Ev.backoff]
          (dlLoop env minSize actual imgName n (a + 1) st)) ∧
    (∀ ct body, env.fetchImg actual a = FetchOutcome.ok ct body → isImageCT ct = false →
      dlLoop env minSize actual imgName (n + 1) a st =
        withEvs [Ev.jitter, Ev.fetchAttempt actual]
          (dlLoop env minSize actual imgName n (a + 1) st)) :=
  ⟨dlLoop_err env minSize actual imgName n a st,
    fun ct body h hct => dlLoop_badct env minSize actual imgName n a st ct body h hct⟩

/-- C5 witness: the two step equations at a concrete environment whose
single attempt raises, applying the theorem directly. -/
theorem C5_witness :
    dlLoop ⟨fun _ => none, fun _ _ => FetchOutcome.err, fun _ => none⟩ 100 "u" "n" 1 0
        ⟨[], [], []⟩ =
      withEvs [Ev.jitter, Ev.fetchAttempt "u", Ev.backoff]
        (dlLoop ⟨fun _ => none, fun _ _ => FetchOutcome.err, fun _ => none⟩ 100 "u" "n" 0 1
          ⟨[], [], []⟩) :=
  (C5_attempt_rejections ⟨fun _ => none, fun _ _ => FetchOutcome.err, fun _ => none⟩
    100 "u" "n" 0 0 ⟨[], [], []⟩).1 rfl

/-- C5 counterexample: a run whose only attempt is rejected for a
non-image Content-Type produces the trace jitter-then-fetch with no
backoff event at all — refuting the claim that a Content-Type rejection
continues only after a longer randomized backoff. -/
theorem C5_counterexample :
    (download_image ⟨fun _ => none, fun _ _ => FetchOutcome.ok "text/html" [],
        fun _ => none⟩ 100 1 "http://a/b.jpg" ⟨[], [], []⟩).2.2 =
      [Ev.jitter, Ev.fetchAttempt "http://a/b.jpg"] ∧
    Ev.backoff ∉ (download_image ⟨fun _ => none, fun _ _ => FetchOutcome.ok "text/html" [],
        fun _ => none⟩ 100 1 "http://a/b.jpg" ⟨[], [], []⟩).2.2 := by decide

/-- C2 (amended): a candidate whose resolution fails appends exactly its
own URL to the failure ledger, and a candidate that exhausts its retries
appends exactly the resolved URL; but a missing (empty) URL produces a
Failed outcome with no ledger line at all. -/
theorem C2_failure_ledger (env : Env) (minSize maxRetries : Nat) (u : String) (st : St) :
    (u ≠ "" → containsImageExt u = false → env.resolvePage u = none →
      (download_image env minSize maxRetries u st).1 = Outcome.failed ∧
      (download_image env minSize maxRetries u st).2.1.failedLog = st.failedLog ++ [u]) ∧
    (∀ actual, u ≠ "" → resolvedOf env u = some actual →
      existsValid env.decode st.fs (generate_unique_filename actual) minSize = false →
      (∀ i, attemptFails env minSize actual i = true) →
      (download_image env minSize maxRetries u st).1 = Outcome.failed ∧
      (download_image env minSize maxRetries u st).2.1.failedLog =
        st.failedLog ++ [actual]) ∧
    (u = "" → (download_image env minSize maxRetries u st).1 = Outcome.failed ∧
      (download_image env minSize maxRetries u st).2.1.failedLog = st.failedLog) := by
  refine ⟨?_, ?_, ?_⟩
  · intro hu hd hr
    have hres : resolvedOf env u = none := by
      unfold resolvedOf
      rw [resolveStep_page env u hd]
      exact hr
    rw [download_image_noresolve env minSize maxRetries u st hu hres]
    exact ⟨rfl, rfl⟩
  · intro actual hu ha hex hfail
    obtain ⟨e1, e2, e3, e4⟩ :=
      download_image_exhaust env minSize maxRetries u actual st hu ha hex hfail
    exact ⟨e1, e2⟩
  · intro hu
    subst hu
    rw [download_image_empty]
    exact ⟨rfl, rfl⟩

/-- C2 witness: a page candidate whose resolution fails appends exactly
one line, its own URL, applying the theorem at a concrete environment. -/
theorem C2_witness :
    (download_image ⟨fun _ => none, fun _ _ => FetchOutcome.err, fun _ => none⟩ 100 2
      "page1" ⟨[], [], []⟩).2.1.failedLog = ["page1"] :=
  ((C2_failure_ledger ⟨fun _ => none, fun _ _ => FetchOutcome.err, fun _ => none⟩ 100 2
    "page1" ⟨[], [], []⟩).1 (by decide) (by decide) rfl).2

/-- C2 counterexample: an empty candidate URL yields a Failed outcome
(counted as a failure by the orchestrator) while the failure ledger is
left untouched — the Failed outcome is silent, refuting the claim that
every Failed outcome appends exactly one ledger line. -/
theorem C2_counterexample :
    download_image ⟨fun _ => none, fun _ _ => FetchOutcome.err, fun _ => none⟩ 100 3 ""
      ⟨[], [], ["x"]⟩ = (Outcome.failed, ⟨[], [], ["x"]⟩, []) := by decide

/-- C8: the worker performs at most maxRetries image fetch attempts and
at most one resolution fetch; when every attempt fails (and no valid
file pre-exists) it terminates in Failed; a missing URL and a failed
resolution are never retried (zero image fetch attempts). -/
theorem C8_retry_bound (env : Env) (minSize maxRetries : Nat) (u : String) (st : St) :
    nFetch (download_image env minSize maxRetries u st).2.2 ≤ maxRetries ∧
    nResolve (download_image env minSize maxRetries u st).2.2 ≤ 1 ∧
    ((∀ v i, attemptFails env minSize v i = true) → st.fs = [] → u ≠ "" →
      (download_image env minSize maxRetries u st).1 = Outcome.failed) ∧
    (u = "" → nFetch (download_image env minSize maxRetries u st).2.2 = 0) ∧
    (u ≠ "" → resolvedOf env u = none →
      nFetch (download_image env minSize maxRetries u st).2.2 = 0) := by
  have hr1 : nResolve (resolveStep env u).2 ≤ 1 := by
    cases h : containsImageExt u <;>
      simp [resolveStep, h, nResolve, List.countP_cons, List.countP_nil, isResolveEv]
  have hf0 := (resolveStep_evs env u).1
  by_cases hu : u = ""
  · subst hu
    rw [download_image_empty]
    exact ⟨by simp [nFetch], by simp [nResolve], fun _ _ h => absurd rfl h,
      fun _ => rfl, fun h _ => absurd rfl h⟩
  · cases hres : resolvedOf env u with
    | none =>
      rw [download_image_noresolve env minSize maxRetries u st hu hres]
      exact ⟨by simpa [nFetch] using Nat.le_of_eq hf0 |>.trans (Nat.zero_le maxRetries),
        hr1, fun _ _ _ => rfl, fun h => absurd h hu, fun _ _ => hf0⟩
    | some a =>
      cases hex : existsValid env.decode st.fs (generate_unique_filename a) minSize with
      | true =>
        rw [download_image_skip env minSize maxRetries u a st hu hres hex]
        refine ⟨by rw [hf0]; exact Nat.zero_le maxRetries, hr1, ?_, fun h => absurd h hu,
          fun _ h => Option.noConfusion h⟩
        intro hfail hfs hu2
        rw [hfs] at hex
        cases hex
      | false =>
        rw [download_image_loop env minSize maxRetries u a st hu hres hex]
        have hle := dlLoop_nFetch_le env minSize a (generate_unique_filename a) maxRetries 0 st
        have hnr := dlLoop_nResolve env minSize a (generate_unique_filename a) maxRetries 0 st
        refine ⟨?_, ?_, ?_, fun h => absurd h hu, fun _ h => Option.noConfusion h⟩
        · simp only [withEvs, nFetch, List.countP_append] at hle hf0 ⊢
          omega
        · simp only [withEvs, nResolve, List.countP_append] at hnr hr1 ⊢
          omega
        · intro hfail hfs hu2
          have := (dlLoop_allFail env minSize a (generate_unique_filename a)
            (hfail a) maxRetries 0 st).1
          simpa [withEvs] using this

/-- C8 witness: a candidate whose every fetch raises terminates Failed,
applying the theorem at a concrete always-failing environment. -/
theorem C8_witness :
    (download_image ⟨fun _ => none, fun _ _ => FetchOutcome.err, fun _ => none⟩ 100 2
      "http://a/b.jpg" ⟨[], [], []⟩).1 = Outcome.failed :=
  (C8_retry_bound ⟨fun _ => none, fun _ _ => FetchOutcome.err, fun _ => none⟩ 100 2
    "http://a/b.jpg" ⟨[], [], []⟩).2.2.1 (fun v i => rfl) rfl (by decide)

/-- C10: the ledgers record different URLs depending on where a page
candidate fails: the original candidate on resolution failure, but the
resolved image URL on retry exhaustion, and the resolved image URL (not
the candidate) on success — so ledger entries may be URLs that never
appeared in the input sequence. -/
theorem C10_ledger_urls (env : Env) (minSize maxRetries : Nat) (u v : String) (st : St)
    (hu : u ≠ "") (hd : containsImageExt u = false) :
    (env.resolvePage u = none →
      (download_image env minSize maxRetries u st).2.1.failedLog = st.failedLog ++ [u]) ∧
    (env.resolvePage u = some v →
      existsValid env.decode st.fs (generate_unique_filename v) minSize = false →
      ((∀ i, attemptFails env minSize v i = true) →
        (download_image env minSize maxRetries u st).2.1.failedLog =
          st.failedLog ++ [v]) ∧
      (∀ ct body, env.fetchImg v 0 = FetchOutcome.ok ct body → isImageCT ct = true →
        is_valid_image env.decode body minSize = true → 0 < maxRetries →
        (download_image env minSize maxRetries u st).2.1.successLog =
          st.successLog ++ [v])) := by
  have hro : ∀ o, env.resolvePage u = o → resolvedOf env u = o := by
    intro o ho
    unfold resolvedOf
    rw [resolveStep_page env u hd]
    exact ho
  refine ⟨?_, ?_⟩
  · intro hr
    rw [download_image_noresolve env minSize maxRetries u st hu (hro none hr)]
  · intro hr hex
    constructor
    · intro hfail
      exact (download_image_exhaust env minSize maxRetries u v st hu (hro _ hr)
        hex hfail).2.1
    · intro ct body hok hct hvv hm
      exact (download_image_first_success env minSize maxRetries u v st ct body hu
        (hro _ hr) hex hok hct hvv hm).2.1

/-- C10 witness: the candidate "page1" resolves to a different image
URL, and on success the success ledger records the resolved URL, not the
candidate — applying the theorem at a concrete environment. -/
theorem C10_witness :
    (download_image ⟨fun _ => some "http://a/b.jpg",
        fun _ _ => FetchOutcome.ok "image/jpeg" [7],
        fun b => if b = [7] then some (200, 200) else none⟩ 100 1 "page1"
      ⟨[], [], []⟩).2.1.successLog = ["http://a/b.jpg"] :=
  ((C10_ledger_urls ⟨fun _ => some "http://a/b.jpg",
      fun _ _ => FetchOutcome.ok "image/jpeg" [7],
      fun b => if b = [7] then some (200, 200) else none⟩ 100 1 "page1" "http://a/b.jpg"
      ⟨[], [], []⟩ (by decide) (by decide)).2 rfl rfl).2 "image/jpeg" [7] rfl rfl
    (by decide) (by decide)

/-- C7 (amended): after a successful page fetch the resolver returns the
first result of four strictly prioritized tiers: (1) og:image then
twitter:image metadata (og preferred over twitter regardless of document
order, property-attribute matches before name-attribute matches, tags
with missing or empty content skipped); (2) the first img whose source
contains one of the tokens full, large, orig, high-res, hires; (3) the
first img with a source; (4) the first hyperlink whose target contains a
known image extension as a substring; none when no tier matches. -/
theorem C7_resolver_priority (join : String → String → String) (pageUrl : String)
    (doc : HtmlDoc) :
    extractFromDoc join pageUrl doc =
      (tier1 doc).orElse (fun _ =>
        (tier2 join pageUrl doc).orElse (fun _ =>
          (tier3 join pageUrl doc).orElse (fun _ => tier4 join pageUrl doc))) := by
  unfold extractFromDoc tier1 tier2 tier3 tier4
  rcases h1 : metaTry doc.metas "og:image" with _ | c1 <;>
    rcases h2 : metaTry doc.metas "twitter:image" with _ | c2 <;>
      rcases h3 : doc.imgs.find? hasHint with _ | s3 <;>
        rcases h4 : doc.imgs.head? with _ | s4 <;>
          rcases h5 : doc.anchors.find? containsImageExt with _ | a5 <;>
            simp [h1, h2, h3, h4, h5, Option.orElse]

/-- C7 counterexample: three documents on which the resolver disagrees
with the claim as stated.  First, an img source containing only the
token "hires" is selected by tier two although it carries none of the
four claimed hint tokens, bypassing the first-img tier that the claim
predicts.  Second, an anchor target merely containing ".jpg" (extension
.html) is returned although the claim predicts NotFound.  Third, with a
twitter:image tag before an og:image tag, the code returns the og
content while document order would give the twitter content. -/
theorem C7_counterexample :
    (extractFromDoc (fun _ s => s) "http://p"
        ⟨[], ["a.png", "b_hires.png"], []⟩ = some "b_hires.png" ∧
      specTier1 ⟨[], ["a.png", "b_hires.png"], []⟩ = none ∧
      specTier2 ⟨[], ["a.png", "b_hires.png"], []⟩ = none ∧
      (⟨[], ["a.png", "b_hires.png"], []⟩ : HtmlDoc).imgs.head? = some "a.png") ∧
    (extractFromDoc (fun _ s => s) "http://p" ⟨[], [], ["c.jpg.html"]⟩ =
        some "c.jpg.html" ∧
      specTier4 ⟨[], [], ["c.jpg.html"]⟩ = none) ∧
    (extractFromDoc (fun _ s => s) "http://p"
        ⟨[⟨some "twitter:image", none, some "T"⟩, ⟨some "og:image", none, some "O"⟩],
          [], []⟩ = some "O" ∧
      specTier1 ⟨[⟨some "twitter:image", none, some "T"⟩,
        ⟨some "og:image", none, some "O"⟩], [], []⟩ = some "T") := by decide

/-- C3 (amended): a candidate whose resolved target file exists and
validates is short-circuited to Skipped before the image download (no
fetch attempt, no file write, state and both ledgers unchanged), though
a page candidate still performs its single resolution fetch first; and
when every outcome of a pass is Success or Skipped, re-running the same
pass performs no file write, leaves the state unchanged, and adds no
failure-ledger entry. -/
theorem C3_skip_and_idempotence (env : Env) (minSize maxRetries : Nat) :
    (∀ u a st, u ≠ "" → resolvedOf env u = some a →
      existsValid env.decode st.fs (generate_unique_filename a) minSize = true →
      (download_image env minSize maxRetries u st).1 = Outcome.skipped ∧
      (download_image env minSize maxRetries u st).2.1 = st ∧
      nFetch (download_image env minSize maxRetries u st).2.2 = 0 ∧
      nWrite (download_image env minSize maxRetries u st).2.2 = 0) ∧
    (∀ urls st,
      (∀ o ∈ (runPass env minSize maxRetries urls st).2.1, o ≠ Outcome.failed) →
      (runPass env minSize maxRetries urls
          (runPass env minSize maxRetries urls st).1).1 =
        (runPass env minSize maxRetries urls st).1 ∧
      nWrite (runPass env minSize maxRetries urls
          (runPass env minSize maxRetries urls st).1).2.2 = 0 ∧
      (runPass env minSize maxRetries urls
          (runPass env minSize maxRetries urls st).1).1.failedLog =
        (runPass env minSize maxRetries urls st).1.failedLog) := by
  constructor
  · intro u a st hu ha hv
    rw [download_image_skip env minSize maxRetries u a st hu ha hv]
    obtain ⟨k1, k2⟩ := resolveStep_evs env u
    exact ⟨rfl, rfl, k1, k2⟩
  · intro urls st hall
    have hready := runPass_all_ready env minSize maxRetries urls st hall
    obtain ⟨j1, j2, j3⟩ := runPass_ready_skips env minSize maxRetries urls
      (runPass env minSize maxRetries urls st).1 hready
    exact ⟨j1, j2, by rw [j1]⟩

/-- C3 witness: a one-candidate pass that succeeds, after which a second
identical pass leaves the state unchanged — applying the theorem at a
concrete environment. -/
theorem C3_witness :
    (runPass ⟨fun _ => none, fun _ _ => FetchOutcome.ok "image/jpeg" [7],
        fun b => if b = [7] then some (200, 200) else none⟩ 100 1 ["http://a/b.jpg"]
      ((runPass ⟨fun _ => none, fun _ _ => FetchOutcome.ok "image/jpeg" [7],
          fun b => if b = [7] then some (200, 200) else none⟩ 100 1 ["http://a/b.jpg"]
        ⟨[], [], []⟩).1)).1 =
      (runPass ⟨fun _ => none, fun _ _ => FetchOutcome.ok "image/jpeg" [7],
          fun b => if b = [7] then some (200, 200) else none⟩ 100 1 ["http://a/b.jpg"]
        ⟨[], [], []⟩).1 :=
  ((C3_skip_and_idempotence _ 100 1).2 ["http://a/b.jpg"] ⟨[], [], []⟩ (by decide)).1

/-- C3 counterexample: first, a page candidate whose valid target
already exists is Skipped, but only after a resolution network fetch —
refuting the claimed short-circuit before ANY network fetch; second, a
candidate that keeps failing appends a fresh failure-ledger entry on the
second run of the same pass — refuting the claimed zero new
failure-ledger entries on an unconditional second run. -/
theorem C3_counterexample :
    ((download_image ⟨fun _ => some "http://a/b.jpg", fun _ _ => FetchOutcome.err,
        fun b => if b = [7] then some (200, 200) else none⟩ 100 1 "http://e.com/page"
      ⟨[("b_853406d4.jpg", [7])], [], []⟩).1 = Outcome.skipped ∧
      (download_image ⟨fun _ => some "http://a/b.jpg", fun _ _ => FetchOutcome.err,
          fun b => if b = [7] then some (200, 200) else none⟩ 100 1 "http://e.com/page"
        ⟨[("b_853406d4.jpg", [7])], [], []⟩).2.2 =
        [Ev.resolveFetch "http://e.com/page"]) ∧
    (runPass ⟨fun _ => none, fun _ _ => FetchOutcome.err, fun _ => none⟩ 100 1
        ["http://a/c.jpg"]
        ((runPass ⟨fun _ => none, fun _ _ => FetchOutcome.err, fun _ => none⟩ 100 1
          ["http://a/c.jpg"] ⟨[], [], []⟩).1)).1.failedLog =
      ["http://a/c.jpg", "http://a/c.jpg"] := by decide

/-- C1 (code bug): retry_failed_images collects still-failed URLs by
pairing the i-th COMPLETED future (as_completed order) with urls
indexed by i (submission order).  With the failure ledger [page1,
http://a/b.jpg], where page1 fails resolution and the direct jpg URL
downloads successfully, but the jpg future completes first (completion
order [1, 0], as can happen with two workers), the truncated-and-
rewritten ledger consists of exactly the URL that SUCCEEDED while the
URL that failed is dropped; the entry count N−M is correct but the
identities are wrong.  Under submission-order completion [0, 1] the
rewritten ledger is the intended [page1]. -/
theorem C1_retry_ledger_bug :
    (retryPass ⟨fun _ => none, fun _ _ => FetchOutcome.ok "image/jpeg" [7],
        fun b => if b = [7] then some (200, 200) else none⟩ 100 1 [1, 0]
      ⟨[], [], ["page1", "http://a/b.jpg"]⟩).failedLog = ["http://a/b.jpg"] ∧
    (download_image ⟨fun _ => none, fun _ _ => FetchOutcome.ok "image/jpeg" [7],
        fun b => if b = [7] then some (200, 200) else none⟩ 100 1 "http://a/b.jpg"
      ⟨[], [], ["page1", "http://a/b.jpg"]⟩).1 = Outcome.success ∧
    (download_image ⟨fun _ => none, fun _ _ => FetchOutcome.ok "image/jpeg" [7],
        fun b => if b = [7] then some (200, 200) else none⟩ 100 1 "page1"
      ⟨[], [], ["page1", "http://a/b.jpg"]⟩).1 = Outcome.failed ∧
    (retryPass ⟨fun _ => none, fun _ _ => FetchOutcome.ok "image/jpeg" [7],
        fun b => if b = [7] then some (200, 200) else none⟩ 100 1 [0, 1]
      ⟨[], [], ["page1", "http://a/b.jpg"]⟩).failedLog = ["page1"] := by decide

end NasaDL
